import Mathlib

/-!
Verification of the multi-strategy IPPT OCR extraction pipeline.
Shallow embedding of the extraction and reconciliation code
(`foolproof_ocr_parser.py`, `api/foolproof_ocr_endpoint.py`,
`working_manual_parser.py`, `integrate_working_parser.py`,
`spatial_ippt_parser.py`, `api/chatgpt_vision_ocr.py`).

Strings are modelled as Lean `String` (lists of characters); Python's
`str.strip` / `str.isdigit` / `str.isupper` / `re` patterns are modelled
for ASCII inputs, which is what the OCR line data consists of.
-/

namespace IpptOcr

/-- Whitespace test used to model Python `str.strip()` (ASCII whitespace). -/
def isWS (c : Char) : Bool := c.isWhitespace

/-- Characters of a string with leading and trailing whitespace removed:
the model of Python `str.strip()` at the character-list level. -/
def stripChars (cs : List Char) : List Char :=
  ((cs.dropWhile isWS).reverse.dropWhile isWS).reverse

/-- Python `s.strip()`. -/
def pstrip (s : String) : String := ⟨stripChars s.data⟩

/-- Bounds-safe line access: Python `lines[i]` under an `i < len(lines)`
guard, with the empty string standing in for the out-of-range case. -/
def getLine (lines : List String) (i : Nat) : String := lines.getD i ""

/-- Numeric value of a decimal digit character. -/
def digitVal (c : Char) : Nat := c.toNat - 48

/-- Python `s.isdigit()` (ASCII): non-empty and all characters are digits. -/
def pyIsDigit (s : String) : Bool := !s.data.isEmpty && s.data.all Char.isDigit

/-- Python `int(s)` for a digit-only string. -/
def intVal (s : String) : Nat := s.data.foldl (fun a c => 10 * a + digitVal c) 0

/-- Full match of the Python pattern `^\d{1,2}:\d{2}$` (the sources only apply
it to stripped lines, so `$` means end of string). -/
def timeShape : List Char → Bool
  | [a, ':', c, d] => a.isDigit && c.isDigit && d.isDigit
  | [a, b, ':', c, d] => a.isDigit && b.isDigit && c.isDigit && d.isDigit
  | _ => false

/-- `pat` is a prefix of `cs` (character lists). -/
def isPrefL : List Char → List Char → Bool
  | [], _ => true
  | _ :: _, [] => false
  | a :: ps, b :: cs => a == b && isPrefL ps cs

/-- `pat` occurs as a contiguous substring of `cs`: Python `pat in s`. -/
def containsL (pat : List Char) : List Char → Bool
  | [] => isPrefL pat []
  | c :: cs => isPrefL pat (c :: cs) || containsL pat (c :: cs).tail

/-- Python `pat in s` on strings. -/
def containsTok (pat s : String) : Bool := containsL pat.data s.data

/-- Python `s.upper()` (ASCII). -/
def pyUpper (s : String) : String := ⟨s.data.map Char.toUpper⟩

/-- Python `s.isupper() and len(s) > 3` (ASCII): at least one letter,
no lowercase letter, and more than three characters. -/
def upperName (s : String) : Bool :=
  s.data.any Char.isAlpha && s.data.all (fun c => !c.isLower) && s.length > 3

/-- Python `s.replace('PTE', '')`: delete every occurrence of `PTE`. -/
def removePTE : List Char → List Char
  | 'P' :: 'T' :: 'E' :: rest => removePTE rest
  | c :: rest => c :: removePTE rest
  | [] => []

/-- `s.replace('PTE', '')` on strings. -/
def removePTEs (s : String) : String := ⟨removePTE s.data⟩

/-- The name normalization applied by the positional extractors:
`lines[pos + 2].strip().replace('PTE', '').strip()`. -/
def normalizeName (s : String) : String := pstrip (removePTEs (pstrip s))

/-- A stripped line that is purely a serial number 1..10:
`text.isdigit() and 1 <= int(text) <= 10`. -/
def isSerial (s : String) : Bool := pyIsDigit s && 1 ≤ intVal s && intVal s ≤ 10

/-- One extracted record (`soldier_data` dict in the sources): spec `Record`
with `identity`/`metric_a`/`metric_b`/`run_time`. -/
structure Soldier where
  name : String
  sit_up_reps : Nat
  push_up_reps : Nat
  run_time : String
deriving DecidableEq, Repr

/-- The all-default record every extractor starts from. -/
def emptySoldier : Soldier :=
  { name := "", sit_up_reps := 0, push_up_reps := 0, run_time := "" }

/-- Which field a positional offset feeds (`'situp' | 'pushup' | 'run'`). -/
inductive SlotKind | situp | pushup | run
deriving DecidableEq, Repr

/-- One iteration of the `for offset, data_type in offsets` loop of
`_extract_soldier_at_position`: bounds-checked read of `lines[pos+off]`,
digit gate for metrics, time-pattern gate for the run slot. -/
def applySlot (lines : List String) (pos : Nat) (s : Soldier)
    (x : Nat × SlotKind) : Soldier :=
  if pos + x.1 < lines.length then
    let l := pstrip (getLine lines (pos + x.1))
    match x.2 with
    | .situp => if pyIsDigit l then { s with sit_up_reps := intVal l } else s
    | .pushup => if pyIsDigit l then { s with push_up_reps := intVal l } else s
    | .run => if timeShape l.data then { s with run_time := l } else s
  else s

/-- `_extract_soldier_at_position(lines, pos, serial)` from
`foolproof_ocr_parser.py` (identical in `api/foolproof_ocr_endpoint.py`, and
inlined in `working_manual_parser.py` / `integrate_working_parser.py`).
`serialIsOne` is Python's `serial == '1'` evaluated at the call site. -/
def extractSoldierAtPosition (lines : List String) (pos : Nat)
    (serialIsOne : Bool) : Option Soldier :=
  let s1 :=
    if pos + 2 < lines.length then
      { emptySoldier with name := normalizeName (getLine lines (pos + 2)) }
    else emptySoldier
  let offsets : List (Nat × SlotKind) :=
    if serialIsOne then [(7, .situp), (8, .pushup), (9, .run)]
    else [(6, .situp), (7, .pushup), (8, .run)]
  let s2 := offsets.foldl (applySlot lines pos) s1
  if s2.name ≠ "" then some s2 else none

/-- Claim-side reading of a metric slot (spec §4.2): the line at index `i`,
stripped, accepted only if all digits; out-of-range or non-digit content
leaves the default 0. -/
def readMetricSlot (lines : List String) (i : Nat) : Nat :=
  let l := pstrip (getLine lines i)
  if pyIsDigit l then intVal l else 0

/-- Claim-side reading of the run-time slot (spec §4.2): accepted only if it
matches `^\d{1,2}:\d{2}$`; otherwise the default empty string. -/
def readTimeSlot (lines : List String) (i : Nat) : String :=
  let l := pstrip (getLine lines i)
  if timeShape l.data then l else ""

/-- The Positional Extractor contract exactly as the spec words it
(§4.2 / claim C4): identity from `anchor+2` normalized; metrics and run time
from the offset window `{+7,+8,+9}` for the first record and `{+6,+7,+8}`
otherwise; anchors yielding an empty identity are dropped. -/
def positionalContract (lines : List String) (pos : Nat)
    (first : Bool) : Option Soldier :=
  let identity := normalizeName (getLine lines (pos + 2))
  if identity = "" then none
  else some
    { name := identity
      sit_up_reps := readMetricSlot lines (pos + if first then 7 else 6)
      push_up_reps := readMetricSlot lines (pos + if first then 8 else 7)
      run_time := readTimeSlot lines (pos + if first then 9 else 8) }

/-- Scan state for the loops that can `break` early: the record built so far
plus a flag recording that the Python loop has exited. -/
structure ScanState where
  cur : Soldier
  stopped : Bool
deriving DecidableEq, Repr

/-- One iteration of the scan loop of `_extract_nearby_data`
(`foolproof_ocr_parser.py`, `push ≤ 2000`) and `_extract_nearby_azure_data`
(`api/foolproof_ocr_endpoint.py`, `push ≤ 200`); `pushCap` is that bound. -/
def nearbyStep (pushCap : Nat) (tokens : List String)
    (st : ScanState) (i : Nat) : ScanState :=
  if st.stopped then st
  else
    let text := pstrip (getLine tokens i)
    if isSerial text then { st with stopped := true }
    else if containsTok "PTE" text || upperName text then
      if st.cur.name == "" then
        { st with cur := { st.cur with name := pstrip (removePTEs text) } }
      else st
    else if pyIsDigit text then
      let num := intVal text
      if 5 ≤ num && num ≤ 80 && st.cur.sit_up_reps == 0 then
        { st with cur := { st.cur with sit_up_reps := num } }
      else if num ≤ pushCap && st.cur.push_up_reps == 0 then
        { st with cur := { st.cur with push_up_reps := num } }
      else st
    else if timeShape text.data then
      if st.cur.run_time == "" then
        { st with cur := { st.cur with run_time := text } }
      else st
    else st

/-- `_extract_nearby_data(all_text, index, serial)` /
`_extract_nearby_azure_data`: scan the next lines (up to `index + 20`),
stop at the next serial number, pick up name, metrics and run time. -/
def extractNearbyData (pushCap : Nat) (tokens : List String)
    (index : Nat) : Option Soldier :=
  let hi := min (index + 20) tokens.length
  let idxs := List.range' (index + 1) (hi - (index + 1))
  let st := idxs.foldl (nearbyStep pushCap tokens) ⟨emptySoldier, false⟩
  if st.cur.name ≠ "" then some st.cur else none

/-- One iteration of the window loop of `_extract_data_around_name`. -/
def aroundStep (lines : List String) (s : Soldier) (i : Nat) : Soldier :=
  let line := pstrip (getLine lines i)
  if pyIsDigit line then
    let num := intVal line
    if 5 ≤ num && num ≤ 80 && s.sit_up_reps == 0 then
      { s with sit_up_reps := num }
    else if num ≤ 2000 && s.push_up_reps == 0 then
      { s with push_up_reps := num }
    else s
  else if timeShape line.data then
    if s.run_time == "" then { s with run_time := line } else s
  else s

/-- `_extract_data_around_name(lines, name_index)` from
`foolproof_ocr_parser.py`: name from the anchor line (`replace('PTE','')`
then strip), metrics and run time from the window
`[max(0, i-5), min(len, i+15))`; kept only with some performance data. -/
def extractDataAroundName (lines : List String) (idx : Nat) : Option Soldier :=
  let s0 := { emptySoldier with name := pstrip (removePTEs (getLine lines idx)) }
  let lo := idx - 5
  let hi := min lines.length (idx + 15)
  let s := (List.range' lo (hi - lo)).foldl (aroundStep lines) s0
  if s.sit_up_reps > 0 || s.run_time ≠ "" then some s else none

/-- One iteration of the backward loop of `_extract_from_performance_context`
(breaks once a name is found). -/
def perfStep (lines : List String) (st : ScanState) (i : Nat) : ScanState :=
  if st.stopped then st
  else
    let line := pstrip (getLine lines i)
    if pyIsDigit line then
      let num := intVal line
      if 5 ≤ num && num ≤ 80 && st.cur.sit_up_reps == 0 then
        { st with cur := { st.cur with sit_up_reps := num } }
      else if num ≤ 2000 && st.cur.push_up_reps == 0 then
        { st with cur := { st.cur with push_up_reps := num } }
      else st
    else if containsTok "PTE" line || upperName line then
      { cur := { st.cur with name := pstrip (removePTEs line) }, stopped := true }
    else st

/-- `_extract_from_performance_context(lines, run_index)` from
`foolproof_ocr_parser.py`: the run time is the raw (unstripped!) line at the
anchor; the loop walks `range(run_index-1, max(0, run_index-10), -1)`
backwards for metrics and a name. -/
def extractFromPerformanceContext (lines : List String)
    (ri : Nat) : Option Soldier :=
  let s0 := { emptySoldier with run_time := getLine lines ri }
  let stop := ri - 10
  let idxs := (List.range' (stop + 1) (ri - 1 - stop)).reverse
  let st := idxs.foldl (perfStep lines) ⟨s0, false⟩
  if st.cur.name ≠ "" then some st.cur else none

/-- One iteration of the block loop of `_extract_from_block` (name and run
time are overwritten by later matches; metrics use first-hit bands). -/
def blockStep (s : Soldier) (rawLine : String) : Soldier :=
  let line := pstrip rawLine
  if containsTok "PTE" line || upperName line then
    { s with name := pstrip (removePTEs line) }
  else if pyIsDigit line then
    let num := intVal line
    if 5 ≤ num && num ≤ 80 && s.sit_up_reps == 0 then
      { s with sit_up_reps := num }
    else if num ≤ 2000 && s.push_up_reps == 0 then
      { s with push_up_reps := num }
    else s
  else if timeShape line.data then { s with run_time := line }
  else s

/-- `_extract_from_block(block, start_line)` from `foolproof_ocr_parser.py`
(the `start_line` argument is unused in the source). -/
def extractFromBlock (block : List String) : Option Soldier :=
  let s := block.foldl blockStep emptySoldier
  if s.name ≠ "" && (s.sit_up_reps > 0 || s.run_time ≠ "") then some s else none

/-- The fixed anchor table `[(23,'1'), (33,'2'), ..., (105,'10')]` shared by
the working line-based strategies. -/
def soldierPositions : List (Nat × String) :=
  [(23, "1"), (33, "2"), (42, "3"), (51, "4"), (60, "5"),
   (69, "6"), (78, "7"), (87, "8"), (96, "9"), (105, "10")]

/-- `_working_line_based_strategy(lines)` from `foolproof_ocr_parser.py`. -/
def workingLineBasedStrategy (lines : List String) : List Soldier :=
  soldierPositions.filterMap fun pq =>
    if pq.1 < lines.length then
      extractSoldierAtPosition lines pq.1 (pq.2 == "1")
    else none

/-- `_serial_number_strategy(lines)`: every line that is a serial number 1..10
anchors an extraction. The Python code passes the serial as an `int`, so the
extractor's `serial == '1'` test is always false (int never equals str). -/
def serialNumberStrategy (lines : List String) : List Soldier :=
  (List.range lines.length).filterMap fun i =>
    if isSerial (pstrip (getLine lines i)) then
      extractSoldierAtPosition lines i false
    else none

/-- The rank-marker token set of `_name_based_strategy`. -/
def rankTokens : List String := ["PTE", "LTA", "CPL", "SGT", "2LT", "CPT"]

/-- `_name_based_strategy(lines)`: any line whose upper-casing contains a
rank marker anchors `_extract_data_around_name`. -/
def nameBasedStrategy (lines : List String) : List Soldier :=
  (List.range lines.length).filterMap fun i =>
    if rankTokens.any (fun t => containsTok t (pyUpper (getLine lines i))) then
      extractDataAroundName lines i
    else none

/-- `_performance_data_strategy(lines)`: any line matching the run-time
pattern anchors `_extract_from_performance_context`. -/
def performanceDataStrategy (lines : List String) : List Soldier :=
  (List.range lines.length).filterMap fun i =>
    if timeShape (pstrip (getLine lines i)).data then
      extractFromPerformanceContext lines i
    else none

/-- `_enhanced_pattern_matching(lines)`: union of the four sub-strategies,
deduplicated by structural equality, keeping only named records. -/
def enhancedPatternMatching (lines : List String) : List Soldier :=
  let cand := workingLineBasedStrategy lines ++ serialNumberStrategy lines ++
    nameBasedStrategy lines ++ performanceDataStrategy lines
  cand.foldl
    (fun acc s => if s.name != "" && !(acc.contains s) then acc ++ [s] else acc)
    []

/-- `_aggressive_extraction(lines)`: slide a 20-line window over the input,
run `_extract_from_block` on each, collect structurally distinct hits, cap
the strategy's own output at 10. -/
def aggressiveExtraction (lines : List String) : List Soldier :=
  ((List.range (lines.length - 20)).foldl
    (fun acc start =>
      match extractFromBlock ((lines.drop start).take 20) with
      | some s => if acc.contains s then acc else acc ++ [s]
      | none => acc)
    []).take 10

/-- `_extract_soldiers_from_text(all_text)` from `foolproof_ocr_parser.py`:
serial-number tokens anchor `_extract_nearby_data` (push bound 2000); the
token list is modelled by its `text` components (the bounding boxes are
never used by the extraction logic). -/
def extractSoldiersFromText (tokens : List String) : List Soldier :=
  (List.range tokens.length).filterMap fun i =>
    if isSerial (pstrip (getLine tokens i)) then
      extractNearbyData 2000 tokens i
    else none

/-- One strategy's result dict `{'soldiers': ..., 'method': ...}`. -/
structure StrategyResult where
  soldiers : List Soldier
  method : String
deriving DecidableEq, Repr

/-- The final result dict of the multi-layer parser:
`{'soldiers', 'total_soldiers', 'method', 'success'}`. -/
structure FinalResult where
  soldiers : List Soldier
  total_soldiers : Nat
  method : String
  success : Bool
deriving DecidableEq, Repr

/-- `_validate_soldier_data(soldier)` from `foolproof_ocr_parser.py`:
named (length ≥ 2), some performance data, sit-ups ≤ 200, push-ups ≤ 2000. -/
def validateSoldierData (s : Soldier) : Bool :=
  if s.name == "" || s.name.length < 2 then false
  else if !(s.sit_up_reps > 0 || s.push_up_reps > 0 || s.run_time != "") then
    false
  else if s.sit_up_reps > 200 then false
  else if s.push_up_reps > 2000 then false
  else true

/-- `_validate_soldier(soldier)` from `api/foolproof_ocr_endpoint.py`:
same checks but push-ups capped at 200 instead of 2000. -/
def validateSoldierEndpoint (s : Soldier) : Bool :=
  if s.name == "" || s.name.length < 2 then false
  else if !(s.sit_up_reps > 0 || s.push_up_reps > 0 || s.run_time != "") then
    false
  else if s.sit_up_reps > 200 then false
  else if s.push_up_reps > 200 then false
  else true

/-- One candidate step of the dedup/validate loops shared by
`_combine_and_validate` and `_deduplicate_and_validate`: skip unnamed
candidates, identities already seen (case-sensitive exact match), and
records the validator rejects; otherwise append and mark the identity. -/
def dedupStep (validator : Soldier → Bool)
    (st : List Soldier × List String) (s : Soldier) :
    List Soldier × List String :=
  if s.name != "" && !(st.2.contains s.name) && validator s then
    (st.1 ++ [s], st.2 ++ [s.name])
  else st

/-- The fixed strategy priority of `_combine_and_validate`. -/
def methodPriority : List String := ["azure_ocr", "pattern_based", "fallback"]

/-- The iteration order of `_combine_and_validate`'s nested loops: for each
method in priority order, each matching result's soldiers in list order. -/
def prioritizedCandidates (results : List StrategyResult) : List Soldier :=
  (methodPriority.flatMap fun m =>
    results.filter (fun r => r.method == m)).flatMap (fun r => r.soldiers)

/-- `_combine_and_validate(results)` from `foolproof_ocr_parser.py`:
priority-ordered dedup and validation, truncation to 10, and the summary
fields (`success = len > 0`). -/
def combineAndValidate (results : List StrategyResult) : FinalResult :=
  let p := (prioritizedCandidates results).foldl (dedupStep validateSoldierData)
    ([], [])
  let final := p.1.take 10
  { soldiers := final
    total_soldiers := final.length
    method := "foolproof_multi_layer"
    success := decide (0 < final.length) }

/-- `_deduplicate_and_validate(soldiers)` from
`api/foolproof_ocr_endpoint.py`: dedup by exact name, validate, cap at 10. -/
def dedupAndValidate (cands : List Soldier) : List Soldier :=
  ((cands.foldl (dedupStep validateSoldierEndpoint) ([], [])).1).take 10

/-- `_azure_ocr_extraction` result wrapper: a raised exception inside the
method (modelled by `Except.error`) degrades to zero candidates with the
`azure_ocr_failed` method tag. -/
def azureOcrExtraction (input : Except Unit (List String)) : StrategyResult :=
  match input with
  | .ok tokens => { soldiers := extractSoldiersFromText tokens, method := "azure_ocr" }
  | .error _ => { soldiers := [], method := "azure_ocr_failed" }

/-- `_pattern_based_extraction` result wrapper (reads the OCR line dump;
a raised exception degrades to zero candidates, tag `pattern_failed`). -/
def patternBasedExtraction (input : Except Unit (List String)) : StrategyResult :=
  match input with
  | .ok lines => { soldiers := enhancedPatternMatching lines, method := "pattern_based" }
  | .error _ => { soldiers := [], method := "pattern_failed" }

/-- `_fallback_extraction` result wrapper (tag `fallback_failed` on error). -/
def fallbackExtraction (input : Except Unit (List String)) : StrategyResult :=
  match input with
  | .ok lines => { soldiers := aggressiveExtraction lines, method := "fallback" }
  | .error _ => { soldiers := [], method := "fallback_failed" }

/-- The core of `extract_ippt_data` from `foolproof_ocr_parser.py`: run the
three methods (Azure token scan, pattern matching, aggressive fallback —
the latter two over the same line input) and reconcile. `Except.error`
models the corresponding Python method raising internally. -/
def extractIpptData (tokens lines : Except Unit (List String)) : FinalResult :=
  combineAndValidate
    [azureOcrExtraction tokens, patternBasedExtraction lines,
     fallbackExtraction lines]

/-- `parse_ippt_with_working_method` from `integrate_working_parser.py`:
the single-strategy integration parser; note that its `success` field is
the literal `True`, not `len(soldiers) > 0`. -/
def parseIpptWithWorkingMethod (lines : List String) : FinalResult :=
  let soldiers := soldierPositions.filterMap fun pq =>
    extractSoldierAtPosition lines pq.1 (pq.2 == "1")
  { soldiers := soldiers
    total_soldiers := soldiers.length
    method := "working_line_based_parser"
    success := true }

/-- One iteration of the scan loop of `_extract_soldier_near_serial` from
`spatial_ippt_parser.py` (like `nearbyStep` plus the take-the-longer-name
branch). -/
def nearSerialStep (tokens : List String) (st : ScanState) (i : Nat) : ScanState :=
  if st.stopped then st
  else
    let text := pstrip (getLine tokens i)
    if isSerial text then { st with stopped := true }
    else if containsTok "PTE" text || upperName text then
      if st.cur.name == "" then
        { st with cur := { st.cur with name := pstrip (removePTEs text) } }
      else if st.cur.name != "" && st.cur.name.length < text.length then
        { st with cur := { st.cur with name := pstrip (removePTEs text) } }
      else st
    else if pyIsDigit text then
      let num := intVal text
      if 5 ≤ num && num ≤ 80 && st.cur.sit_up_reps == 0 then
        { st with cur := { st.cur with sit_up_reps := num } }
      else if num ≤ 2000 && st.cur.push_up_reps == 0 then
        { st with cur := { st.cur with push_up_reps := num } }
      else st
    else if timeShape text.data then
      if st.cur.run_time == "" then
        { st with cur := { st.cur with run_time := text } }
      else st
    else st

/-- `_extract_soldier_near_serial(all_text, serial_index, serial_num)` from
`spatial_ippt_parser.py`; always returns the record (possibly unnamed). -/
def extractSoldierNearSerial (tokens : List String) (index : Nat) : Soldier :=
  let hi := min (index + 20) tokens.length
  let idxs := List.range' (index + 1) (hi - (index + 1))
  (idxs.foldl (nearSerialStep tokens) ⟨emptySoldier, false⟩).cur

/-- The candidate loop of `extract_soldiers_by_regions` from
`spatial_ippt_parser.py`: every serial-number token anchors one extraction;
records with a name are appended — no dedup and no cap. -/
def extractSoldiersByRegions (tokens : List String) : List Soldier :=
  (List.range tokens.length).filterMap fun i =>
    if isSerial (pstrip (getLine tokens i)) then
      let s := extractSoldierNearSerial tokens i
      if s.name != "" then some s else none
    else none

/-- Attempt of the Python pattern `(\d{1,2}):(\d{2})` anchored at the start
of `cs`, with the regex engine's backtracking (two minute digits tried
first; the one-digit alternative needs a colon right after). Returns the
(minutes, seconds) groups. -/
def timeAt (cs : List Char) : Option (Nat × Nat) :=
  match cs with
  | a :: b :: rest =>
    if a.isDigit then
      if b.isDigit then
        match rest with
        | ':' :: c :: d :: _ =>
          if c.isDigit && d.isDigit then
            some (10 * digitVal a + digitVal b, 10 * digitVal c + digitVal d)
          else none
        | _ => none
      else if b = ':' then
        match rest with
        | c :: d :: _ =>
          if c.isDigit && d.isDigit then
            some (digitVal a, 10 * digitVal c + digitVal d)
          else none
        | _ => none
      else none
    else none
  | _ => none

/-- Python `re.search(r'(\d{1,2}):(\d{2})', s)`: leftmost match. -/
def searchTimePair : List Char → Option (Nat × Nat)
  | [] => none
  | c :: cs =>
    match timeAt (c :: cs) with
    | some r => some r
    | none => searchTimePair cs

/-- Python `f"{seconds:02d}"` for `seconds < 100`. -/
def pad2 (n : Nat) : String := if n < 10 then "0" ++ toString n else toString n

/-- Python `f"{minutes}:{seconds:02d}"`. -/
def fmtTime (m sec : Nat) : String := toString m ++ ":" ++ pad2 sec

/-- `_validate_time(time_str)` from `api/chatgpt_vision_ocr.py`: empty input
gives `''`; otherwise search for the first `H:MM`/`HH:MM`-shaped substring,
and if its minutes are ≤ 30 and seconds ≤ 59 return it reformatted as
`M:SS`, else `''`. Total by construction (the Python code never raises). -/
def validateTime (s : String) : String :=
  if s == "" then ""
  else
    match searchTimePair s.data with
    | some (m, sec) => if m ≤ 30 && sec ≤ 59 then fmtTime m sec else ""
    | none => ""

/-- Claim-side test: a time-shaped substring starts at index `i` of `cs`. -/
def timeShapedAt (cs : List Char) (i : Nat) : Bool := (timeAt (cs.drop i)).isSome

/-- Claim-side search: the least index at which a time-shaped substring
starts. -/
def firstTimeIdx (cs : List Char) : Option Nat :=
  (List.range cs.length).find? (timeShapedAt cs)

/-- `validate_time` as the spec words it (§4.1 / claim C7): search the input
for an `H:MM`/`HH:MM`-shaped substring (leftmost); if found and in range,
reformat as `M:SS` with zero-padded seconds; in every other case return the
empty string. -/
def specValidateTime (s : String) : String :=
  match firstTimeIdx s.data with
  | none => ""
  | some i =>
    match timeAt (s.data.drop i) with
    | some (m, sec) => if m ≤ 30 && sec ≤ 59 then fmtTime m sec else ""
    | none => ""

/-- The spec §8 scenario input for the Positional Extractor. -/
def scenarioLines : List String :=
  ["1", "ID001", "PTE JOHN TAN", "x", "x", "x", "x", "35", "40", "9:30"]

/-- A subsequent-record scenario with a non-numeric line in a metric slot. -/
def scenarioLinesBad : List String :=
  ["2", "x", "PTE JOHN TAN", "x", "x", "x", "abc", "40", "9:30"]

/-- Invariant of the dedup/validate fold: accepted names are pairwise
distinct, every accepted record's name is marked seen, and every accepted
record passed the validator. -/
def dedupInv (v : Soldier → Bool) (st : List Soldier × List String) : Prop :=
  (st.1.map Soldier.name).Nodup ∧ (∀ s ∈ st.1, s.name ∈ st.2) ∧
    ∀ s ∈ st.1, v s = true

/-- A token input on which the Spatial Extractor produces 11 candidate
records that all carry the same name: eleven serial-number anchors, each
followed by the same `PTE`-marked name line. -/
def dupTokens : List String := (List.replicate 11 ["1", "PTE JOHN TAN"]).flatten

/-- Run-time field invariant maintained by every foolproof-parser extractor:
empty, or time-shaped after stripping (the performance-context extractor
stores the raw line, all others store the stripped line). -/
def runTimeInv (s : Soldier) : Bool :=
  s.run_time == "" || timeShape (stripChars s.run_time.data)

/-- A line input refuting claim C3: the serial strategy extracts
`{AB, 17, 1500, "45:99"}` (push-ups over 200, run-time minutes over 30) and
the performance-context strategy extracts `{MIKE, 30, 0, " 9:30"}` (raw,
unstripped run-time line); all pass `_validate_soldier_data`. -/
def ceLines : List String :=
  ["1", "", "AB", "", "", "", "17", "1500", "45:99", "MIKE", "30", " 9:30"]

/-- Claim C3's run-time condition: matches `^\d{1,2}:\d{2}$` with minutes
at most 30 and seconds at most 59. -/
def timeWithinBounds (s : String) : Bool :=
  match s.data with
  | [a, ':', c, d] => a.isDigit && c.isDigit && d.isDigit &&
      decide (digitVal a ≤ 30) && decide (10 * digitVal c + digitVal d ≤ 59)
  | [a, b, ':', c, d] => a.isDigit && b.isDigit && c.isDigit && d.isDigit &&
      decide (10 * digitVal a + digitVal b ≤ 30) &&
      decide (10 * digitVal c + digitVal d ≤ 59)
  | _ => false

/-- Claim C3's per-record condition: metric_a in [0,200], metric_b in
[0,200], and run_time empty or an in-range time. -/
def claimC3Check (s : Soldier) : Bool :=
  decide (s.sit_up_reps ≤ 200) && decide (s.push_up_reps ≤ 200) &&
    (s.run_time == "" || timeWithinBounds s.run_time)

/-! ### Theorems -/

theorem getLine_eq_default {lines : List String} {i : Nat}
    (h : lines.length ≤ i) : getLine lines i = "" :=
  List.getD_eq_default _ _ h

/-! ### Generic fold invariants -/

theorem foldl_induct {σ α : Type _} (P : σ → Prop) (f : σ → α → σ)
    (hstep : ∀ s a, P s → P (f s a)) :
    ∀ (l : List α) (s : σ), P s → P (l.foldl f s)
  | [], _, h => h
  | a :: l, s, h => foldl_induct P f hstep l (f s a) (hstep s a h)

theorem foldl_induct_mem {σ α : Type _} (P : σ → Prop) (Q : α → Prop)
    (f : σ → α → σ) (hstep : ∀ s a, Q a → P s → P (f s a)) :
    ∀ (l : List α), (∀ a ∈ l, Q a) → ∀ (s : σ), P s → P (l.foldl f s)
  | [], _, _, h => h
  | a :: l, hq, s, h =>
    foldl_induct_mem P Q f hstep l (fun x hx => hq x (List.mem_cons_of_mem a hx))
      (f s a) (hstep s a (hq a (List.mem_cons_self a l)) h)

/-! ### Dedup loop invariants (shared by both reconcilers) -/

theorem dedupStep_inv (v : Soldier → Bool) (st : List Soldier × List String)
    (s : Soldier) (h : dedupInv v st) : dedupInv v (dedupStep v st s) := by
  obtain ⟨acc, seen⟩ := st
  obtain ⟨h1, h2, h3⟩ := h
  by_cases hc : (s.name != "" && !(seen.contains s.name) && v s) = true
  · rw [show dedupStep v (acc, seen) s = (acc ++ [s], seen ++ [s.name]) from by
      unfold dedupStep; rw [if_pos hc]]
    have hns : seen.contains s.name = false := by
      rcases Bool.and_eq_true .. ▸ hc with ⟨hl, _⟩
      rcases Bool.and_eq_true .. ▸ hl with ⟨_, hns'⟩
      simpa using hns'
    have hnotin : s.name ∉ seen := by
      intro hmem
      rw [List.contains, List.elem_iff.2 hmem] at hns
      exact Bool.true_eq_false.mp hns
    have hv : v s = true := by
      rcases Bool.and_eq_true .. ▸ hc with ⟨_, hv'⟩
      exact hv'
    refine ⟨?_, ?_, ?_⟩
    · rw [List.map_append, List.nodup_append]
      refine ⟨h1, List.nodup_singleton _, ?_⟩
      intro a ha hb
      rcases List.mem_singleton.mp hb with rfl
      rcases List.mem_map.mp ha with ⟨t, ht, hteq⟩
      exact hnotin (hteq ▸ h2 t ht)
    · intro t ht
      rcases List.mem_append.mp ht with ht' | ht'
      · exact List.mem_append_left _ (h2 t ht')
      · rcases List.mem_singleton.mp ht' with rfl
        exact List.mem_append_right _ (List.mem_singleton.mpr rfl)
    · intro t ht
      rcases List.mem_append.mp ht with ht' | ht'
      · exact h3 t ht'
      · rcases List.mem_singleton.mp ht' with rfl
        exact hv
  · rw [show dedupStep v (acc, seen) s = (acc, seen) from by
      unfold dedupStep; rw [if_neg hc]]
    exact ⟨h1, h2, h3⟩

theorem dedup_fold_inv (v : Soldier → Bool) (cands : List Soldier) :
    dedupInv v (cands.foldl (dedupStep v) ([], [])) :=
  foldl_induct (dedupInv v) (dedupStep v) (dedupStep_inv v) cands ([], [])
    ⟨List.nodup_nil, fun _ h => absurd h (List.not_mem_nil _),
     fun _ h => absurd h (List.not_mem_nil _)⟩

theorem combineAndValidate_nodup (results : List StrategyResult) :
    ((combineAndValidate results).soldiers.map Soldier.name).Nodup := by
  have h := (dedup_fold_inv validateSoldierData (prioritizedCandidates results)).1
  show (((((prioritizedCandidates results).foldl
    (dedupStep validateSoldierData) ([], [])).1).take 10).map Soldier.name).Nodup
  rw [List.map_take]
  exact (List.take_sublist _ _).nodup h

theorem dedupAndValidate_nodup (cands : List Soldier) :
    ((dedupAndValidate cands).map Soldier.name).Nodup := by
  have h := (dedup_fold_inv validateSoldierEndpoint cands).1
  show ((((cands.foldl (dedupStep validateSoldierEndpoint) ([], [])).1).take 10).map
    Soldier.name).Nodup
  rw [List.map_take]
  exact (List.take_sublist _ _).nodup h

/-! ### Claim theorems: output cap and identity dedup -/

/-- C1: for every input, the final record list produced by the Reconciler
(`_combine_and_validate` merging all strategies, and the endpoint's
`_deduplicate_and_validate`) contains at most 10 records: both truncate the
accepted list with `[:10]`. -/
theorem claim1_output_cap (results : List StrategyResult)
    (cands : List Soldier) :
    (combineAndValidate results).soldiers.length ≤ 10 ∧
      (dedupAndValidate cands).length ≤ 10 :=
  ⟨List.length_take_le 10 _, List.length_take_le 10 _⟩

/-- C2: the identities of the records in the reconciled output are pairwise
distinct under case-sensitive exact string comparison — a candidate whose
name is already in `seen_names` is skipped, never appended; this holds for
`_combine_and_validate` and for `_deduplicate_and_validate`. -/
theorem claim2_identity_dedup (results : List StrategyResult)
    (cands : List Soldier) :
    ((combineAndValidate results).soldiers.map Soldier.name).Nodup ∧
      ((dedupAndValidate cands).map Soldier.name).Nodup :=
  ⟨combineAndValidate_nodup results, dedupAndValidate_nodup cands⟩

/-- C10: the Spatial Extractor (`extract_soldiers_by_regions` /
`_extract_soldier_near_serial`) enforces neither the 10-record cap nor
identity dedup: on `dupTokens` it returns 11 records, all named
`JOHN TAN`. -/
theorem claim10_spatial_no_cap_no_dedup :
    10 < (extractSoldiersByRegions dupTokens).length ∧
      (extractSoldiersByRegions dupTokens).map Soldier.name =
        List.replicate 11 "JOHN TAN" ∧
      ¬ ((extractSoldiersByRegions dupTokens).map Soldier.name).Nodup := by
  refine ⟨by decide, by decide, ?_⟩
  intro h
  rw [show (extractSoldiersByRegions dupTokens).map Soldier.name =
    List.replicate 11 "JOHN TAN" from by decide] at h
  simp [List.nodup_replicate] at h

/-! ### The positional extractor equals its spec-side contract -/

theorem applySlot_situp (lines : List String) (pos off : Nat) (nm : String)
    (push : Nat) (run : String) :
    applySlot lines pos ⟨nm, 0, push, run⟩ (off, .situp) =
      ⟨nm, readMetricSlot lines (pos + off), push, run⟩ := by
  show (if pos + off < lines.length then
      if pyIsDigit (pstrip (getLine lines (pos + off))) = true
      then (⟨nm, intVal (pstrip (getLine lines (pos + off))), push, run⟩ : Soldier)
      else ⟨nm, 0, push, run⟩
    else ⟨nm, 0, push, run⟩) = ⟨nm, readMetricSlot lines (pos + off), push, run⟩
  unfold readMetricSlot
  by_cases hb : pos + off < lines.length
  · rw [if_pos hb]
    by_cases hd : pyIsDigit (pstrip (getLine lines (pos + off))) = true
    · rw [if_pos hd, if_pos hd]
    · rw [if_neg hd, if_neg hd]
  · rw [if_neg hb, getLine_eq_default (by omega)]
    rfl

theorem applySlot_pushup (lines : List String) (pos off : Nat) (nm : String)
    (sit : Nat) (run : String) :
    applySlot lines pos ⟨nm, sit, 0, run⟩ (off, .pushup) =
      ⟨nm, sit, readMetricSlot lines (pos + off), run⟩ := by
  show (if pos + off < lines.length then
      if pyIsDigit (pstrip (getLine lines (pos + off))) = true
      then (⟨nm, sit, intVal (pstrip (getLine lines (pos + off))), run⟩ : Soldier)
      else ⟨nm, sit, 0, run⟩
    else ⟨nm, sit, 0, run⟩) = ⟨nm, sit, readMetricSlot lines (pos + off), run⟩
  unfold readMetricSlot
  by_cases hb : pos + off < lines.length
  · rw [if_pos hb]
    by_cases hd : pyIsDigit (pstrip (getLine lines (pos + off))) = true
    · rw [if_pos hd, if_pos hd]
    · rw [if_neg hd, if_neg hd]
  · rw [if_neg hb, getLine_eq_default (by omega)]
    rfl

theorem applySlot_run (lines : List String) (pos off : Nat) (nm : String)
    (sit push : Nat) :
    applySlot lines pos ⟨nm, sit, push, ""⟩ (off, .run) =
      ⟨nm, sit, push, readTimeSlot lines (pos + off)⟩ := by
  show (if pos + off < lines.length then
      if timeShape (pstrip (getLine lines (pos + off))).data = true
      then (⟨nm, sit, push, pstrip (getLine lines (pos + off))⟩ : Soldier)
      else ⟨nm, sit, push, ""⟩
    else ⟨nm, sit, push, ""⟩) = ⟨nm, sit, push, readTimeSlot lines (pos + off)⟩
  unfold readTimeSlot
  by_cases hb : pos + off < lines.length
  · rw [if_pos hb]
    by_cases hd : timeShape (pstrip (getLine lines (pos + off))).data = true
    · rw [if_pos hd, if_pos hd]
    · rw [if_neg hd, if_neg hd]
  · rw [if_neg hb, getLine_eq_default (by omega)]
    rfl

theorem extractAtPos_eq (lines : List String) (pos : Nat) (b : Bool) :
    extractSoldierAtPosition lines pos b = positionalContract lines pos b := by
  have hname : (if pos + 2 < lines.length then
        ({ name := normalizeName (getLine lines (pos + 2)), sit_up_reps := 0,
           push_up_reps := 0, run_time := "" } : Soldier)
      else emptySoldier) =
      ⟨normalizeName (getLine lines (pos + 2)), 0, 0, ""⟩ := by
    split
    · rfl
    · next h =>
      rw [getLine_eq_default (by omega)]
      rfl
  cases b
  · show (if (List.foldl (applySlot lines pos)
        (if pos + 2 < lines.length then
          ({ name := normalizeName (getLine lines (pos + 2)), sit_up_reps := 0,
             push_up_reps := 0, run_time := "" } : Soldier)
         else emptySoldier)
        [(6, .situp), (7, .pushup), (8, .run)]).name ≠ ""
      then some (List.foldl (applySlot lines pos)
        (if pos + 2 < lines.length then
          ({ name := normalizeName (getLine lines (pos + 2)), sit_up_reps := 0,
             push_up_reps := 0, run_time := "" } : Soldier)
         else emptySoldier)
        [(6, .situp), (7, .pushup), (8, .run)])
      else none) = positionalContract lines pos false
    rw [hname]
    rw [show ∀ s : Soldier, List.foldl (applySlot lines pos) s
      [(6, .situp), (7, .pushup), (8, .run)] =
      applySlot lines pos (applySlot lines pos (applySlot lines pos s (6, .situp))
        (7, .pushup)) (8, .run) from fun s => rfl]
    rw [applySlot_situp, applySlot_pushup, applySlot_run]
    show _ = (if normalizeName (getLine lines (pos + 2)) = "" then none
      else some (⟨normalizeName (getLine lines (pos + 2)), readMetricSlot lines (pos + 6),
        readMetricSlot lines (pos + 7), readTimeSlot lines (pos + 8)⟩ : Soldier))
    by_cases hN : normalizeName (getLine lines (pos + 2)) = ""
    · rw [if_neg (not_not_intro hN), if_pos hN]
    · rw [if_pos hN, if_neg hN]
  · show (if (List.foldl (applySlot lines pos)
        (if pos + 2 < lines.length then
          ({ name := normalizeName (getLine lines (pos + 2)), sit_up_reps := 0,
             push_up_reps := 0, run_time := "" } : Soldier)
         else emptySoldier)
        [(7, .situp), (8, .pushup), (9, .run)]).name ≠ ""
      then some (List.foldl (applySlot lines pos)
        (if pos + 2 < lines.length then
          ({ name := normalizeName (getLine lines (pos + 2)), sit_up_reps := 0,
             push_up_reps := 0, run_time := "" } : Soldier)
         else emptySoldier)
        [(7, .situp), (8, .pushup), (9, .run)])
      else none) = positionalContract lines pos true
    rw [hname]
    rw [show ∀ s : Soldier, List.foldl (applySlot lines pos) s
      [(7, .situp), (8, .pushup), (9, .run)] =
      applySlot lines pos (applySlot lines pos (applySlot lines pos s (7, .situp))
        (8, .pushup)) (9, .run) from fun s => rfl]
    rw [applySlot_situp, applySlot_pushup, applySlot_run]
    show _ = (if normalizeName (getLine lines (pos + 2)) = "" then none
      else some (⟨normalizeName (getLine lines (pos + 2)), readMetricSlot lines (pos + 7),
        readMetricSlot lines (pos + 8), readTimeSlot lines (pos + 9)⟩ : Soldier))
    by_cases hN : normalizeName (getLine lines (pos + 2)) = ""
    · rw [if_neg (not_not_intro hN), if_pos hN]
    · rw [if_pos hN, if_neg hN]

/-- C4: for every line sequence and every anchor, the Positional Extractor
equals its spec-side contract `positionalContract`: identity from the line
at `anchor+2` (normalized, whitespace trimmed), metrics and run time from
the window `{+7,+8,+9}` for the first record and `{+6,+7,+8}` otherwise,
a metric slot accepting only an all-digits line, the run slot only a
`^\d{1,2}:\d{2}$` line, any other content or an out-of-range offset leaving
the default — and extraction is total (never raises). The two concrete
conjuncts are the spec §8 scenarios (including the non-numeric `abc`
metric line left at 0). -/
theorem claim4_positional_contract :
    (∀ (lines : List String) (pos : Nat) (b : Bool),
      extractSoldierAtPosition lines pos b = positionalContract lines pos b) ∧
    extractSoldierAtPosition scenarioLines 0 true =
      some ⟨"JOHN TAN", 35, 40, "9:30"⟩ ∧
    extractSoldierAtPosition scenarioLinesBad 0 false =
      some ⟨"JOHN TAN", 0, 40, "9:30"⟩ :=
  ⟨extractAtPos_eq, by decide, by decide⟩

/-- C9: the identity used for dedup is the anchor line with whitespace
stripped, every occurrence of the substring `PTE` removed (not only a
leading rank token), then stripped again; no other rank marker is handled,
so `CPL`/`SGT`/`2LT` survive into the identity. -/
theorem claim9_name_normalization :
    (∀ (lines : List String) (pos : Nat) (b : Bool),
      (extractSoldierAtPosition lines pos b).elim True
        (fun s => s.name = normalizeName (getLine lines (pos + 2)))) ∧
    normalizeName " PTE JOHN PTE TAN " = "JOHN  TAN" ∧
    normalizeName "COMPTEX" = "COMX" ∧
    normalizeName "CPL JOHN TAN" = "CPL JOHN TAN" ∧
    normalizeName "SGT LEE" = "SGT LEE" ∧
    normalizeName "2LT WONG" = "2LT WONG" := by
  refine ⟨?_, by decide, by decide, by decide, by decide, by decide⟩
  intro lines pos b
  rw [extractAtPos_eq]
  show (if normalizeName (getLine lines (pos + 2)) = "" then none
    else some (⟨normalizeName (getLine lines (pos + 2)),
      readMetricSlot lines (pos + if b = true then 7 else 6),
      readMetricSlot lines (pos + if b = true then 8 else 7),
      readTimeSlot lines (pos + if b = true then 9 else 8)⟩ : Soldier)).elim True
      (fun s => s.name = normalizeName (getLine lines (pos + 2)))
  by_cases hN : normalizeName (getLine lines (pos + 2)) = ""
  · rw [if_pos hN]
    exact trivial
  · rw [if_neg hN]
    exact rfl

theorem validate_named {s : Soldier} (h : validateSoldierData s = true) :
    s.name ≠ "" := by
  intro hn
  unfold validateSoldierData at h
  rw [hn] at h
  simp at h

/-- C5: when two strategies produce candidates with the same name and the
higher-priority strategy's record validates, the Reconciler's output is
exactly the higher-priority record; the lower-priority candidate is dropped
whole by identity dedup — its fields are never merged in. -/
theorem claim5_priority_wins (r1 r2 : Soldier) (hname : r1.name = r2.name)
    (hval : validateSoldierData r1 = true) :
    (combineAndValidate
      [⟨[r1], "azure_ocr"⟩, ⟨[r2], "pattern_based"⟩,
       ⟨[], "fallback"⟩]).soldiers = [r1] := by
  have hne : r1.name ≠ "" := validate_named hval
  show ((dedupStep validateSoldierData
    (dedupStep validateSoldierData ([], []) r1) r2).1).take 10 = [r1]
  have h1 : dedupStep validateSoldierData ([], []) r1 = ([r1], [r1.name]) := by
    simp [dedupStep, hval, hne]
  rw [h1]
  have h2 : dedupStep validateSoldierData ([r1], [r1.name]) r2 =
      ([r1], [r1.name]) := by
    simp [dedupStep, ← hname]
  rw [h2]
  rfl

/-- C5 witness: the `JOHN TAN` 35-versus-38 scenario from the spec. -/
theorem claim5_priority_wins_witness :
    (combineAndValidate
      [⟨[⟨"JOHN TAN", 35, 40, "9:30"⟩], "azure_ocr"⟩,
       ⟨[⟨"JOHN TAN", 38, 40, "9:30"⟩], "pattern_based"⟩,
       ⟨[], "fallback"⟩]).soldiers = [⟨"JOHN TAN", 35, 40, "9:30"⟩] :=
  claim5_priority_wins ⟨"JOHN TAN", 35, 40, "9:30"⟩
    ⟨"JOHN TAN", 38, 40, "9:30"⟩ rfl (by decide)

/-- C6 counterexample: the claim says the result's `success` field always
equals `count > 0`, citing `integrate_working_parser.py` — but
`parse_ippt_with_working_method` hardcodes `success = True`: on an input
with no extractable record it returns zero records with `success = true`. -/
theorem claim6_counterexample :
    (parseIpptWithWorkingMethod []).soldiers = [] ∧
      (parseIpptWithWorkingMethod []).total_soldiers = 0 ∧
      (parseIpptWithWorkingMethod []).success = true ∧
      (parseIpptWithWorkingMethod []).success ≠
        decide (0 < (parseIpptWithWorkingMethod []).total_soldiers) := by
  refine ⟨by decide, by decide, by decide, by decide⟩

/-- C6 (amended): the multi-strategy Reconciler `_combine_and_validate`
pipeline does return `success = (count > 0)` with `count` the record-list
length; an extractor that raises (the `Except.error` input) yields exactly
the same result as one producing zero candidates; and when every strategy
produces nothing the result is the empty well-formed object. Only the
single-strategy `parse_ippt_with_working_method` hardcodes `success`. -/
theorem claim6_amended_success_semantics :
    (∀ tokens lines, (extractIpptData tokens lines).success =
        decide (0 < (extractIpptData tokens lines).total_soldiers) ∧
      (extractIpptData tokens lines).total_soldiers =
        (extractIpptData tokens lines).soldiers.length) ∧
    (∀ lines, extractIpptData (Except.error ()) lines =
      extractIpptData (Except.ok []) lines) ∧
    (∀ tokens, extractIpptData tokens (Except.error ()) =
      extractIpptData tokens (Except.ok [])) ∧
    extractIpptData (Except.ok []) (Except.ok []) =
      ⟨[], 0, "foolproof_multi_layer", false⟩ := by
  refine ⟨fun tokens lines => ⟨rfl, rfl⟩, ?_, ?_, by decide⟩
  · intro lines
    cases lines with
    | ok l => rfl
    | error e => rfl
  · intro tokens
    cases tokens with
    | ok t => rfl
    | error e => rfl

/-! ### validate_time: recursive search equals leftmost-index search -/

theorem searchTimePair_eq_first (cs : List Char) :
    searchTimePair cs =
      match (List.range cs.length).find? (timeShapedAt cs) with
      | some i => timeAt (cs.drop i)
      | none => none := by
  induction cs with
  | nil => rfl
  | cons c t ih =>
    rw [show (c :: t).length = t.length + 1 from rfl, List.range_succ_eq_map]
    rw [List.find?_cons]
    cases hm : timeAt (c :: t) with
    | some r =>
      have h0 : timeShapedAt (c :: t) 0 = true := by
        unfold timeShapedAt
        rw [List.drop_zero, hm]
        rfl
      rw [h0]
      show searchTimePair (c :: t) = timeAt (c :: t)
      unfold searchTimePair
      rw [hm]
    | none =>
      have h0 : timeShapedAt (c :: t) 0 = false := by
        unfold timeShapedAt
        rw [List.drop_zero, hm]
        rfl
      rw [h0]
      show searchTimePair (c :: t) =
        match (List.map Nat.succ (List.range t.length)).find?
          (timeShapedAt (c :: t)) with
        | some i => timeAt ((c :: t).drop i)
        | none => none
      rw [List.find?_map]
      have hcomp : (timeShapedAt (c :: t) ∘ Nat.succ) = timeShapedAt t := by
        funext i
        show timeShapedAt (c :: t) (i + 1) = timeShapedAt t i
        unfold timeShapedAt
        rw [List.drop_succ_cons]
      rw [hcomp]
      have hstep : searchTimePair (c :: t) = searchTimePair t := by
        show (match timeAt (c :: t) with
          | some r => some r
          | none => searchTimePair t) = searchTimePair t
        rw [hm]
      rw [hstep, ih]
      cases hf : (List.range t.length).find? (timeShapedAt t) with
      | some j =>
        show timeAt (t.drop j) = timeAt ((c :: t).drop (j + 1))
        rw [List.drop_succ_cons]
      | none => rfl

/-- C7: `_validate_time` behaves exactly as specified: it searches the input
for the leftmost `H:MM`/`HH:MM`-shaped substring; if that match has minutes
in [0,30] and seconds in [0,59] it returns it reformatted as `M:SS` with
zero-padded seconds, and in every other case (no match, out-of-range match,
empty input) returns the empty string — `validateTime` coincides with the
claim-side `specValidateTime` on every string, and is total (never
raises). -/
theorem claim7_validate_time (s : String) : validateTime s = specValidateTime s := by
  unfold validateTime specValidateTime firstTimeIdx
  by_cases he : s = ""
  · subst he
    rfl
  · rw [if_neg (by simpa using he)]
    rw [searchTimePair_eq_first]
    cases hf : (List.range s.data.length).find? (timeShapedAt s.data) with
    | some i =>
      cases ht : timeAt (s.data.drop i) with
      | some p => rfl
      | none => rfl
    | none => rfl

/-- C8 counterexample: `validate_time` is *not* a no-op on every in-range
`MM:SS` string — a leading zero in the minutes is dropped:
`validate_time("05:07") = "5:07"` although `05:07` is an `MM:SS` string with
minutes 5 ∈ [0,30] and seconds 7 ∈ [0,59]. -/
theorem claim8_counterexample :
    validateTime "05:07" = "5:07" ∧ validateTime "05:07" ≠ "05:07" := by
  refine ⟨by decide, by decide⟩

theorem validateTime_fixed_helper :
    ∀ m < 31, ∀ sec < 60, validateTime (fmtTime m sec) = fmtTime m sec := by
  decide

/-- C8 (amended): `validate_time` is a no-op on every time string already in
the validator's own normal form `M:SS`/`MM:SS` — minutes in [0,30] written
without a leading zero, seconds in [0,59] zero-padded to two digits (the
image of `f"{minutes}:{seconds:02d}"`). Strings with a zero-padded minutes
part such as `05:07` are reformatted instead. -/
theorem claim8_amended_fixed_point (m sec : Nat) (hm : m ≤ 30)
    (hs : sec ≤ 59) : validateTime (fmtTime m sec) = fmtTime m sec :=
  validateTime_fixed_helper m (by omega) sec (by omega)

/-- C8 witness: the amended no-op theorem at `9:30`. -/
theorem claim8_amended_fixed_point_witness :
    validateTime (fmtTime 9 30) = fmtTime 9 30 ∧ fmtTime 9 30 = "9:30" :=
  ⟨claim8_amended_fixed_point 9 30 (by decide) (by decide), by decide⟩


/-! ### Claim C3: field ranges of the reconciled output -/

theorem notWS_of_isDigit {c : Char} (h : c.isDigit = true) : isWS c = false := by
  unfold isWS Char.isWhitespace
  unfold Char.isDigit at h
  simp only [Bool.and_eq_true, decide_eq_true_eq] at h
  obtain ⟨h1, h2⟩ := h
  simp only [Bool.or_eq_false_iff, decide_eq_false_iff_not]
  refine ⟨⟨⟨?_, ?_⟩, ?_⟩, ?_⟩ <;> rintro rfl <;> simp_all

/-- A string matching `^\d{1,2}:\d{2}$` has no surrounding whitespace, so
stripping it is the identity. -/
theorem stripChars_timeShape : ∀ {cs : List Char}, timeShape cs = true →
    stripChars cs = cs := by
  intro cs h
  unfold timeShape at h
  split at h
  · next a c d =>
    simp only [Bool.and_eq_true] at h
    obtain ⟨⟨ha, hc⟩, hd⟩ := h
    unfold stripChars
    rw [List.dropWhile_cons, notWS_of_isDigit ha]
    simp only [Bool.false_eq_true, if_false]
    rw [show ([a, ':', c, d] : List Char).reverse = [d, c, ':', a] from by simp]
    rw [List.dropWhile_cons, notWS_of_isDigit hd]
    simp
  · next a b c d =>
    simp only [Bool.and_eq_true] at h
    obtain ⟨⟨⟨ha, hb⟩, hc⟩, hd⟩ := h
    unfold stripChars
    rw [List.dropWhile_cons, notWS_of_isDigit ha]
    simp only [Bool.false_eq_true, if_false]
    rw [show ([a, b, ':', c, d] : List Char).reverse = [d, c, ':', b, a] from by simp]
    rw [List.dropWhile_cons, notWS_of_isDigit hd]
    simp
  · exact absurd h (by simp)

theorem runTimeInv_set_stripped (s : Soldier) (x : String)
    (hd : timeShape (pstrip x).data = true) :
    runTimeInv { s with run_time := pstrip x } = true := by
  unfold runTimeInv
  show (pstrip x == "" || timeShape (stripChars (pstrip x).data)) = true
  rw [stripChars_timeShape hd, hd, Bool.or_true]

theorem nearbyStep_runInv (cap : Nat) (tokens : List String) (st : ScanState)
    (i : Nat) (h : runTimeInv st.cur = true) :
    runTimeInv (nearbyStep cap tokens st i).cur = true := by
  simp only [nearbyStep]
  repeat' split
  all_goals first
    | exact h
    | exact runTimeInv_set_stripped _ _ (by assumption)

theorem aroundStep_runInv (lines : List String) (s : Soldier) (i : Nat)
    (h : runTimeInv s = true) : runTimeInv (aroundStep lines s i) = true := by
  simp only [aroundStep]
  repeat' split
  all_goals first
    | exact h
    | exact runTimeInv_set_stripped _ _ (by assumption)

theorem blockStep_runInv (s : Soldier) (l : String)
    (h : runTimeInv s = true) : runTimeInv (blockStep s l) = true := by
  simp only [blockStep]
  repeat' split
  all_goals first
    | exact h
    | exact runTimeInv_set_stripped _ _ (by assumption)

theorem perfStep_run_eq (lines : List String) (st : ScanState) (i : Nat) :
    (perfStep lines st i).cur.run_time = st.cur.run_time := by
  simp only [perfStep]
  repeat' split
  all_goals rfl

theorem runTimeInv_empty : runTimeInv emptySoldier = true := rfl

theorem extractNearbyData_runInv (cap : Nat) (tokens : List String) (i : Nat)
    (s : Soldier) (h : extractNearbyData cap tokens i = some s) :
    runTimeInv s = true := by
  simp only [extractNearbyData] at h
  have hinv : runTimeInv ((List.range' (i + 1) (min (i + 20) tokens.length - (i + 1))).foldl
      (nearbyStep cap tokens) ⟨emptySoldier, false⟩).cur = true :=
    foldl_induct (fun st => runTimeInv st.cur = true) (nearbyStep cap tokens)
      (fun st a hP => nearbyStep_runInv cap tokens st a hP) _ _ runTimeInv_empty
  split at h
  · obtain rfl := Option.some.inj h
    exact hinv
  · exact absurd h (by simp)

theorem readTimeSlot_inv (lines : List String) (i : Nat) :
    (readTimeSlot lines i == "" ||
      timeShape (stripChars (readTimeSlot lines i).data)) = true := by
  simp only [readTimeSlot]
  split
  · next hd => rw [stripChars_timeShape hd, hd, Bool.or_true]
  · simp

theorem extractAtPos_runInv (lines : List String) (pos : Nat) (b : Bool)
    (s : Soldier) (h : extractSoldierAtPosition lines pos b = some s) :
    runTimeInv s = true := by
  rw [extractAtPos_eq] at h
  by_cases hN : normalizeName (getLine lines (pos + 2)) = ""
  · rw [show positionalContract lines pos b = none from by
      simp only [positionalContract]
      rw [if_pos hN]] at h
    exact absurd h (by simp)
  · rw [show positionalContract lines pos b = some
      ⟨normalizeName (getLine lines (pos + 2)),
        readMetricSlot lines (pos + if b = true then 7 else 6),
        readMetricSlot lines (pos + if b = true then 8 else 7),
        readTimeSlot lines (pos + if b = true then 9 else 8)⟩ from by
      simp only [positionalContract]
      rw [if_neg hN]] at h
    obtain rfl := Option.some.inj h
    exact readTimeSlot_inv lines _

theorem extractDataAroundName_runInv (lines : List String) (idx : Nat)
    (s : Soldier) (h : extractDataAroundName lines idx = some s) :
    runTimeInv s = true := by
  simp only [extractDataAroundName] at h
  have hinv : runTimeInv ((List.range' (idx - 5) (min lines.length (idx + 15) - (idx - 5))).foldl
      (aroundStep lines)
      { emptySoldier with name := pstrip (removePTEs (getLine lines idx)) }) = true :=
    foldl_induct (fun t => runTimeInv t = true) (aroundStep lines)
      (fun t a hP => aroundStep_runInv lines t a hP) _ _ rfl
  split at h
  · obtain rfl := Option.some.inj h
    exact hinv
  · exact absurd h (by simp)

theorem extractFromPerformanceContext_run (lines : List String) (ri : Nat)
    (s : Soldier) (h : extractFromPerformanceContext lines ri = some s) :
    s.run_time = getLine lines ri := by
  simp only [extractFromPerformanceContext] at h
  have hrun : (((List.range' (ri - 10 + 1) (ri - 1 - (ri - 10))).reverse).foldl
      (perfStep lines)
      ⟨{ emptySoldier with run_time := getLine lines ri }, false⟩).cur.run_time =
      getLine lines ri :=
    foldl_induct (fun st => st.cur.run_time = getLine lines ri) (perfStep lines)
      (fun st a hP => (perfStep_run_eq lines st a).trans hP) _ _ rfl
  split at h
  · obtain rfl := Option.some.inj h
    exact hrun
  · exact absurd h (by simp)

theorem extractFromBlock_runInv (block : List String) (s : Soldier)
    (h : extractFromBlock block = some s) : runTimeInv s = true := by
  simp only [extractFromBlock] at h
  have hinv : runTimeInv (block.foldl blockStep emptySoldier) = true :=
    foldl_induct (fun t => runTimeInv t = true) blockStep
      (fun t a hP => blockStep_runInv t a hP) _ _ runTimeInv_empty
  split at h
  · obtain rfl := Option.some.inj h
    exact hinv
  · exact absurd h (by simp)

theorem workingLineBasedStrategy_runInv (lines : List String) :
    ∀ s ∈ workingLineBasedStrategy lines, runTimeInv s = true := by
  intro s hs
  unfold workingLineBasedStrategy at hs
  rw [List.mem_filterMap] at hs
  obtain ⟨pq, _, hf⟩ := hs
  split at hf
  · exact extractAtPos_runInv _ _ _ _ hf
  · exact absurd hf (by simp)

theorem serialNumberStrategy_runInv (lines : List String) :
    ∀ s ∈ serialNumberStrategy lines, runTimeInv s = true := by
  intro s hs
  unfold serialNumberStrategy at hs
  rw [List.mem_filterMap] at hs
  obtain ⟨i, _, hf⟩ := hs
  split at hf
  · exact extractAtPos_runInv _ _ _ _ hf
  · exact absurd hf (by simp)

theorem nameBasedStrategy_runInv (lines : List String) :
    ∀ s ∈ nameBasedStrategy lines, runTimeInv s = true := by
  intro s hs
  unfold nameBasedStrategy at hs
  rw [List.mem_filterMap] at hs
  obtain ⟨i, _, hf⟩ := hs
  split at hf
  · exact extractDataAroundName_runInv _ _ _ hf
  · exact absurd hf (by simp)

theorem performanceDataStrategy_runInv (lines : List String) :
    ∀ s ∈ performanceDataStrategy lines, runTimeInv s = true := by
  intro s hs
  unfold performanceDataStrategy at hs
  rw [List.mem_filterMap] at hs
  obtain ⟨i, _, hf⟩ := hs
  split at hf
  · next hg =>
    have hrun := extractFromPerformanceContext_run lines i s hf
    unfold runTimeInv
    rw [hrun]
    have : timeShape (stripChars (getLine lines i).data) = true := hg
    rw [this, Bool.or_true]
  · exact absurd hf (by simp)

theorem extractSoldiersFromText_runInv (tokens : List String) :
    ∀ s ∈ extractSoldiersFromText tokens, runTimeInv s = true := by
  intro s hs
  unfold extractSoldiersFromText at hs
  rw [List.mem_filterMap] at hs
  obtain ⟨i, _, hf⟩ := hs
  split at hf
  · exact extractNearbyData_runInv _ _ _ _ hf
  · exact absurd hf (by simp)

theorem enhancedPatternMatching_runInv (lines : List String) :
    ∀ s ∈ enhancedPatternMatching lines, runTimeInv s = true := by
  intro s hs
  unfold enhancedPatternMatching at hs
  refine foldl_induct_mem (fun acc => ∀ t ∈ acc, runTimeInv t = true)
    (fun t => runTimeInv t = true) _ ?_ _ ?_ [] (by simp) s hs
  · intro acc a hQ hP t ht
    split at ht
    · rcases List.mem_append.mp ht with h' | h'
      · exact hP t h'
      · rcases List.mem_singleton.mp h' with rfl
        exact hQ
    · exact hP t ht
  · intro a ha
    rcases List.mem_append.mp ha with h' | h'
    · rcases List.mem_append.mp h' with h'' | h''
      · rcases List.mem_append.mp h'' with h3 | h3
        · exact workingLineBasedStrategy_runInv lines a h3
        · exact serialNumberStrategy_runInv lines a h3
      · exact nameBasedStrategy_runInv lines a h''
    · exact performanceDataStrategy_runInv lines a h'

theorem aggressiveExtraction_runInv (lines : List String) :
    ∀ s ∈ aggressiveExtraction lines, runTimeInv s = true := by
  intro s hs
  unfold aggressiveExtraction at hs
  have hmem := List.take_subset _ _ hs
  refine foldl_induct (fun acc => ∀ t ∈ acc, runTimeInv t = true) _ ?_ _ []
    (by simp) s hmem
  intro acc a hP t ht
  cases hb : extractFromBlock ((lines.drop a).take 20) with
  | none =>
    simp only [hb] at ht
    exact hP t ht
  | some u =>
    simp only [hb] at ht
    split at ht
    · exact hP t ht
    · rcases List.mem_append.mp ht with h' | h'
      · exact hP t h'
      · rcases List.mem_singleton.mp h' with rfl
        exact extractFromBlock_runInv _ _ hb

theorem dedup_fold_mem {v : Soldier → Bool} {Q : Soldier → Prop}
    (cands : List Soldier) (hq : ∀ s ∈ cands, Q s) :
    ∀ s ∈ (cands.foldl (dedupStep v) ([], [])).1, Q s := by
  refine foldl_induct_mem (fun st => ∀ t ∈ st.1, Q t) Q (dedupStep v) ?_ cands hq
    ([], []) (by simp)
  intro st a hQ hP t ht
  unfold dedupStep at ht
  split at ht
  · rcases List.mem_append.mp ht with h' | h'
    · exact hP t h'
    · rcases List.mem_singleton.mp h' with rfl
      exact hQ
  · exact hP t ht

theorem validate_bounds {s : Soldier} (h : validateSoldierData s = true) :
    s.sit_up_reps ≤ 200 ∧ s.push_up_reps ≤ 2000 := by
  unfold validateSoldierData at h
  split at h
  · exact absurd h (by simp)
  · split at h
    · exact absurd h (by simp)
    · split at h
      · exact absurd h (by simp)
      · split at h
        · exact absurd h (by simp)
        · next h1 h2 h3 h4 => exact ⟨by omega, by omega⟩

theorem validate_bounds_endpoint {s : Soldier}
    (h : validateSoldierEndpoint s = true) :
    s.sit_up_reps ≤ 200 ∧ s.push_up_reps ≤ 200 := by
  unfold validateSoldierEndpoint at h
  split at h
  · exact absurd h (by simp)
  · split at h
    · exact absurd h (by simp)
    · split at h
      · exact absurd h (by simp)
      · split at h
        · exact absurd h (by simp)
        · next h1 h2 h3 h4 => exact ⟨by omega, by omega⟩

theorem prioritized_mem {results : List StrategyResult} {s : Soldier}
    (h : s ∈ prioritizedCandidates results) : ∃ r ∈ results, s ∈ r.soldiers := by
  unfold prioritizedCandidates at h
  rw [List.mem_flatMap] at h
  obtain ⟨r, hr, hs⟩ := h
  rw [List.mem_flatMap] at hr
  obtain ⟨m, _, hrf⟩ := hr
  exact ⟨r, List.mem_of_mem_filter hrf, hs⟩

theorem extractIpptData_cand_runInv (tokens lines : Except Unit (List String)) :
    ∀ s ∈ prioritizedCandidates
      [azureOcrExtraction tokens, patternBasedExtraction lines,
       fallbackExtraction lines], runTimeInv s = true := by
  intro s hs
  obtain ⟨r, hr, hsr⟩ := prioritized_mem hs
  simp only [List.mem_cons, List.not_mem_nil, or_false] at hr
  rcases hr with rfl | rfl | rfl
  · cases tokens with
    | ok t => exact extractSoldiersFromText_runInv t s hsr
    | error e => exact absurd hsr (by simp [azureOcrExtraction])
  · cases lines with
    | ok l => exact enhancedPatternMatching_runInv l s hsr
    | error e => exact absurd hsr (by simp [patternBasedExtraction])
  · cases lines with
    | ok l => exact aggressiveExtraction_runInv l s hsr
    | error e => exact absurd hsr (by simp [fallbackExtraction])


theorem extractIpptData_field_ranges (tokens lines : Except Unit (List String)) :
    ((extractIpptData tokens lines).soldiers.all
      (fun s => decide (s.sit_up_reps ≤ 200) && decide (s.push_up_reps ≤ 2000) &&
        runTimeInv s)) = true := by
  rw [List.all_eq_true]
  intro s hs
  have hmem : s ∈ ((prioritizedCandidates
      [azureOcrExtraction tokens, patternBasedExtraction lines,
       fallbackExtraction lines]).foldl (dedupStep validateSoldierData)
      ([], [])).1 := List.take_subset _ _ hs
  have hrun : runTimeInv s = true :=
    dedup_fold_mem _ (extractIpptData_cand_runInv tokens lines) s hmem
  have hval : validateSoldierData s = true :=
    (dedup_fold_inv validateSoldierData _).2.2 s hmem
  obtain ⟨b1, b2⟩ := validate_bounds hval
  simp [hrun, b1, b2]

theorem dedupAndValidate_field_ranges (cands : List Soldier) :
    ((dedupAndValidate cands).all
      (fun s => decide (s.sit_up_reps ≤ 200) &&
        decide (s.push_up_reps ≤ 200))) = true := by
  rw [List.all_eq_true]
  intro s hs
  have hmem : s ∈ (cands.foldl (dedupStep validateSoldierEndpoint) ([], [])).1 :=
    List.take_subset _ _ hs
  have hval := (dedup_fold_inv validateSoldierEndpoint cands).2.2 s hmem
  obtain ⟨b1, b2⟩ := validate_bounds_endpoint hval
  simp [b1, b2]

/-- C3 counterexample: on `ceLines` the Reconciler's final output contains
`{AB, 17, 1500, "45:99"}` — metric_b 1500 is far above 200 (the foolproof
validator only caps push-ups at 2000) and run-time `45:99` has minutes 45 and
seconds 99, both out of the claimed ranges — and `{MIKE, 30, 0, " 9:30"}`,
whose run_time does not even match `^\d{1,2}:\d{2}$` because the
performance-context extractor stores the raw, unstripped line. -/
theorem claim3_counterexample :
    (extractIpptData (Except.ok []) (Except.ok ceLines)).soldiers =
      [⟨"AB", 17, 1500, "45:99"⟩, ⟨"MIKE", 30, 0, " 9:30"⟩] ∧
    ((extractIpptData (Except.ok []) (Except.ok ceLines)).soldiers.all
      claimC3Check) = false := by
  refine ⟨by decide, by decide⟩

/-- C3 (amended): every record in the foolproof Reconciler's final output has
`0 ≤ metric_a ≤ 200` and `0 ≤ metric_b ≤ 2000` (not 200), and its run_time
is either empty or, after stripping surrounding whitespace, matches
`^\d{1,2}:\d{2}$` — with no bound on the minutes or seconds values; the
endpoint Reconciler `_deduplicate_and_validate` additionally caps
`metric_b` at 200. -/
theorem claim3_amended_field_ranges :
    (∀ tokens lines, ((extractIpptData tokens lines).soldiers.all
      (fun s => decide (s.sit_up_reps ≤ 200) &&
        decide (s.push_up_reps ≤ 2000) && runTimeInv s)) = true) ∧
    (∀ cands, ((dedupAndValidate cands).all
      (fun s => decide (s.sit_up_reps ≤ 200) &&
        decide (s.push_up_reps ≤ 200))) = true) :=
  ⟨extractIpptData_field_ranges, dedupAndValidate_field_ranges⟩

end IpptOcr
